import Mathlib

/-!
Shallow embedding of the ntp-time-sync time-synchronization engine
(src/NtpTimeSync.ts, latest snapshot: the class with the maxRetries option).

JavaScript numbers are modelled as exact rationals; millisecond timestamps
(values of Date.getTime / Date.now) as integers.  The one place where JS
division can produce NaN in this code (dividing by a sample-list length of
zero) is modelled explicitly with Option, none standing for NaN.
-/

namespace NtpSync

/-- The resolved option scalars of NtpTimeSyncOptions that the engine reads
(servers are handled separately by the endpoint-resolution model).
Mirrors NtpTimeSyncDefaultOptions' ntpDefaults group plus sampleCount and
maxRetries. -/
structure NtpConfig where
  sampleCount : ℕ
  maxRetries : ℕ
  version : ℕ
  tolerance : ℚ
  minPoll : ℕ
  maxDispersion : ℚ
  maxStratum : ℤ
  precision : ℤ
  referenceDate : ℤ

/-- The documented default configuration (lines 502-529 of the source):
sampleCount 8, maxRetries 3, version 4, tolerance 15e-6, minPoll 4,
maxDispersion 16, maxStratum 16, precision -18, referenceDate Jan 01 1900 GMT
(-2208988800000 ms since the Unix epoch). -/
def defaultConfig : NtpConfig :=
  { sampleCount := 8
    maxRetries := 3
    version := 4
    tolerance := 15 / 1000000
    minPoll := 4
    maxDispersion := 16
    maxStratum := 16
    precision := -18
    referenceDate := -2208988800000 }

/-- A decoded NTP reply (NtpReceivedPacket): the fields of the parsed packet
that the engine reads, with destinationTimestamp stamped at receipt.
Date-valued fields are in integer milliseconds; version, leapIndicator,
stratum and the server-reported precision exponent are integers. -/
structure NtpReceivedPacket where
  version : ℤ
  leapIndicator : ℤ
  stratum : ℤ
  rootDelay : ℤ
  rootDispersion : ℤ
  originTimestamp : ℤ
  receiveTimestamp : ℤ
  transmitTimestamp : ℤ
  destinationTimestamp : ℤ
  precision : ℤ
deriving DecidableEq

/-- acceptResponse (source lines 889-920): the four rejection tests, in source
order, each throwing; Except.error models the throw. -/
def acceptResponse (cfg : NtpConfig) (now : ℤ) (data : NtpReceivedPacket) :
    Except String Unit :=
  if data.version > (cfg.version : ℤ) then
    Except.error ("Format error: unexpected version")
  else if data.leapIndicator = 3 ∨ data.stratum ≥ cfg.maxStratum then
    Except.error ("Stratum error: Remote clock is unsynchronized")
  else
    let rootDelay : ℚ := ((data.rootDelay : ℚ) - (cfg.referenceDate : ℚ)) / 1000
    let rootDispersion : ℚ := ((data.rootDispersion : ℚ) - (cfg.referenceDate : ℚ)) / 1000
    if rootDelay / 2 + rootDispersion ≥ cfg.maxDispersion then
      Except.error ("Distance error: Root distance too large")
    else if data.originTimestamp > now then
      Except.error ("Format error: Origin timestamp is from the future")
    else
      Except.ok ()

/-- A sample derived from one accepted reply (SampleData), source lines 657-685. -/
structure SampleData where
  data : NtpReceivedPacket
  offset : ℚ
  delay : ℚ
  dispersion : ℚ

/-- The per-reply statistics of collectSamples (source lines 658-685):
offset sign, offset, delay (floored at 2^precision) and dispersion. -/
def computeSample (cfg : NtpConfig) (data : NtpReceivedPacket) : SampleData :=
  let offsetSign : ℚ := if data.transmitTimestamp > data.destinationTimestamp then 1 else -1
  let offset : ℚ :=
    ((|(data.receiveTimestamp : ℚ) - (data.originTimestamp : ℚ)| +
        |(data.transmitTimestamp : ℚ) - (data.destinationTimestamp : ℚ)|) / 2) * offsetSign
  let delay : ℚ :=
    max ((data.destinationTimestamp : ℚ) - (data.originTimestamp : ℚ) -
          ((data.receiveTimestamp : ℚ) - (data.transmitTimestamp : ℚ)))
        ((2 : ℚ) ^ cfg.precision)
  let dispersion : ℚ :=
    (2 : ℚ) ^ data.precision + (2 : ℚ) ^ cfg.precision +
      cfg.tolerance * ((data.destinationTimestamp : ℚ) - (data.originTimestamp : ℚ))
  { data := data, offset := offset, delay := delay, dispersion := dispersion }

/-- One round's per-server outcomes: for each configured server, either the
validated reply or the error it was replaced by (transport failure, timeout,
or a validation throw from acceptResponse).  The source awaits all of them
and keeps the non-errors (lines 635-643). -/
def roundAccepted {ε : Type} (round : List (Except ε NtpReceivedPacket)) :
    List NtpReceivedPacket :=
  round.filterMap (fun r => r.toOption)

/-- The do-while of collectSamples (source lines 621-649), driven by a trace
listing each round's outcomes.  Arguments after the trace: the accumulated
ntpResults, the retry counter, and the number of rounds already run.  Returns
none when the trace is too short for the loop to finish (i.e. the loop would
start yet another round), otherwise the final accumulator, retry counter and
total number of rounds run. -/
def collectLoop {ε : Type} (maxRetries numSamples : ℕ) :
    List (List (Except ε NtpReceivedPacket)) → List NtpReceivedPacket → ℕ → ℕ →
    Option (List NtpReceivedPacket × ℕ × ℕ)
  | [], _, _, _ => none
  | round :: rest, acc, retry, rounds =>
    if (acc ++ roundAccepted round).length < numSamples ∧
        (if (acc ++ roundAccepted round).length = 0 then retry + 1 else retry) < maxRetries then
      collectLoop maxRetries numSamples rest (acc ++ roundAccepted round)
        (if (acc ++ roundAccepted round).length = 0 then retry + 1 else retry) (rounds + 1)
    else
      some (acc ++ roundAccepted round,
        (if (acc ++ roundAccepted round).length = 0 then retry + 1 else retry), rounds + 1)

/-- The sample list of one synchronization run before selection: every
accepted reply converted by computeSample (source lines 657-685) and sorted
ascending by delay (lines 688-690; the array sort with a numeric comparator,
modelled by a stable merge sort on delay). -/
def sortedSamples (cfg : NtpConfig) (results : List NtpReceivedPacket) : List SampleData :=
  (results.map (computeSample cfg)).mergeSort (fun a b => decide (a.delay ≤ b.delay))

/-- Selection (source line 693): keep the first numSamples of the sorted list. -/
def selectSamples (cfg : NtpConfig) (numSamples : ℕ) (results : List NtpReceivedPacket) :
    List SampleData :=
  (sortedSamples cfg results).take numSamples

/-- collectSamples (source lines 615-694).  The outcome is either the
connection error thrown after total exhaustion (carrying the retry counter it
reports) or the selected samples; paired with the number of rounds run.
none when the loop would need more rounds than the trace contains. -/
def collectSamples {ε : Type} (cfg : NtpConfig) (numSamples : ℕ)
    (trace : List (List (Except ε NtpReceivedPacket))) :
    Option (Except ℕ (List SampleData) × ℕ) :=
  match collectLoop cfg.maxRetries numSamples trace [] 0 0 with
  | none => none
  | some (acc, retry, rounds) =>
    if acc.length = 0 then some (Except.error retry, rounds)
    else some (Except.ok (selectSamples cfg numSamples acc), rounds)

/-- The reduce-based summation of the source (avg, getTime line 716). -/
def sumJs (values : List ℚ) : ℚ := values.foldl (fun sum value => sum + value) 0

/-- avg (source lines 925-931): sum / values.length.  In JS this is 0/0 = NaN
for an empty list; NaN is modelled as none. -/
def avg (values : List ℚ) : Option ℚ :=
  if values.length = 0 then none else some (sumJs values / (values.length : ℚ))

/-- The squared deviations from a given average (stdDev, source lines 939-942). -/
def squareDiffs (values : List ℚ) (a : ℚ) : List ℚ :=
  values.map (fun value => (value - a) * (value - a))

/-- The radicand of stdDev: the average of the squared deviations.  NaN (from
an empty list) propagates as none. -/
def stdDevSq (values : List ℚ) : Option ℚ :=
  match avg values with
  | none => none
  | some a => avg (squareDiffs values a)

/-- stdDev (source lines 936-945): square root of the average of the squared
deviations from the average.  NaN is modelled as none. -/
noncomputable def stdDev (values : List ℚ) : Option ℝ :=
  (stdDevSq values).map (fun q => Real.sqrt (q : ℝ))

/-- The externally visible result of getTime (NtpTimeResult): corrected time,
offset and precision in milliseconds.  none models NaN values. -/
structure SyncResult where
  now : Option ℚ
  offset : Option ℚ
  precision : Option ℝ

/-- The module-level cache payload (lastResult, source lines 468-473). -/
structure CacheVal where
  offset : Option ℚ
  precision : Option ℝ

/-- The process-wide mutable module state: lastPoll and lastResult
(source lines 467-473); both start undefined. -/
structure GlobalState where
  lastPoll : Option ℤ
  lastResult : Option CacheVal

/-- The initial module state: lastPoll and lastResult undefined. -/
def initialState : GlobalState := { lastPoll := none, lastResult := none }

/-- The cache-miss path of getTime (source lines 711-735): run collectSamples,
aggregate offset (mean of the selected offsets) and precision (stdDev),
store both with the completion instant tDone in the module state, and return
the result anchored at the fresh read tRes.  A thrown connection error
propagates and leaves the state unchanged.  The Boolean records that a
network round was performed. -/
noncomputable def getTimeMiss {ε : Type} (cfg : NtpConfig) (tDone tRes : ℤ)
    (trace : List (List (Except ε NtpReceivedPacket))) (st : GlobalState) :
    Option (Except ℕ SyncResult × GlobalState × Bool) :=
  match collectSamples cfg cfg.sampleCount trace with
  | none => none
  | some (Except.error retry, _) => some (Except.error retry, st, true)
  | some (Except.ok samples, _) =>
    let offset := avg (samples.map (fun sample => sample.offset))
    let precisionV := stdDev (samples.map (fun sample => sample.offset))
    some (Except.ok
        { now := offset.map (fun o => (tRes : ℚ) + o), offset := offset, precision := precisionV },
      { lastPoll := some tDone, lastResult := some { offset := offset, precision := precisionV } },
      true)

/-- getTime (source lines 699-736).  tCheck is the Date.now() of the cache
check, tDone the Date.now() stored as lastPoll after a fresh round, tRes the
wall-clock read used for the returned corrected time.  The cache is served
when force is false, lastPoll is set and truthy (a stored 0 is falsy in JS),
and less than 2^minPoll seconds have passed; the result then projects the
fresh read tRes through the cached offset.  Otherwise the miss path runs. -/
noncomputable def getTime {ε : Type} (cfg : NtpConfig) (force : Bool)
    (tCheck tDone tRes : ℤ) (trace : List (List (Except ε NtpReceivedPacket)))
    (st : GlobalState) : Option (Except ℕ SyncResult × GlobalState × Bool) :=
  match st.lastPoll with
  | none => getTimeMiss cfg tDone tRes trace st
  | some t =>
    if force = false ∧ t ≠ 0 ∧ tCheck - t < 2 ^ cfg.minPoll * 1000 then
      match st.lastResult with
      | none => none
      | some r =>
        some (Except.ok
            { now := r.offset.map (fun o => (tRes : ℚ) + o), offset := r.offset,
              precision := r.precision },
          st, false)
    else getTimeMiss cfg tDone tRes trace st

/-- The arithmetic mean, written as the spec words it ("mean(selected.offset)").
Used only to compare the source's reduce-based computation against the spec. -/
def meanSpec (xs : List ℚ) : ℚ := xs.sum / (xs.length : ℚ)

/-- Population variance, written as the spec words it ("mean of squared
deviations from the mean").  Used only for comparison with the source. -/
def popVarSpec (xs : List ℚ) : ℚ :=
  ((xs.map (fun v => (v - meanSpec xs) ^ 2)).sum) / (xs.length : ℚ)

/-- A benign concrete reply used as test input in witnesses. -/
def pkt0 : NtpReceivedPacket :=
  { version := 4, leapIndicator := 0, stratum := 2, rootDelay := 0, rootDispersion := 0,
    originTimestamp := 0, receiveTimestamp := 0, transmitTimestamp := 0,
    destinationTimestamp := 0, precision := -20 }

/-- The default configuration with maxRetries overridden to 0 (a valid
override per the data model, which admits any maxRetries at least 0). -/
def cfgZeroRetries : NtpConfig := { defaultConfig with maxRetries := 0 }

/-- The default configuration with sampleCount overridden to 1. -/
def cfgOneSample : NtpConfig := { defaultConfig with sampleCount := 1 }

/-- A one-round trace whose single exchange succeeds with pkt0. -/
def traceOne : List (List (Except String NtpReceivedPacket)) := [[Except.ok pkt0]]

/-- The module state after a first getTime call on traceOne completing at
clock value 100: offset 0, precision 0 cached. -/
def stA : GlobalState :=
  { lastPoll := some 100, lastResult := some { offset := some 0, precision := some 0 } }

/-- The result of that first getTime call (result instant read at 7). -/
def r1A : SyncResult := { now := some 7, offset := some 0, precision := some 0 }

end NtpSync

namespace NtpSync

/-- C5 helper: the source's rejection conditions as a proposition. -/
def rejectCondition (cfg : NtpConfig) (now : ℤ) (data : NtpReceivedPacket) : Prop :=
  data.version > (cfg.version : ℤ) ∨
  (data.leapIndicator = 3 ∨ data.stratum ≥ cfg.maxStratum) ∨
  (((data.rootDelay : ℚ) - (cfg.referenceDate : ℚ)) / 1000) / 2 +
      (((data.rootDispersion : ℚ) - (cfg.referenceDate : ℚ)) / 1000) ≥ cfg.maxDispersion ∨
  data.originTimestamp > now

/-- A JavaScript value as far as the configuration code distinguishes values:
numbers, strings, Dates, arrays and plain objects (an association list of own
enumerable properties in insertion order). -/
inductive JsVal where
  | num : ℚ → JsVal
  | str : String → JsVal
  | date : ℤ → JsVal
  | arr : List JsVal → JsVal
  | obj : List (String × JsVal) → JsVal

/-- The in-operator: whether the object has the key. -/
def jsHasKey (fields : List (String × JsVal)) (k : String) : Bool :=
  fields.any (fun p => p.1 == k)

/-- Property access on an object, none when absent. -/
def jsGet (fields : List (String × JsVal)) (k : String) : Option JsVal :=
  (fields.find? (fun p => p.1 == k)).map (fun p => p.2)

/-- Object.entries: own enumerable properties; empty for primitives and for
Dates (which have no own enumerable properties). -/
def jsEntries : JsVal → List (String × JsVal)
  | JsVal.obj fields => fields
  | _ => []

/-- Array.isArray. -/
def isArrayJs : JsVal → Bool
  | JsVal.arr _ => true
  | _ => false

/-- The source's isObject test (line 590): typeof v is "object" and v is not
null — true for plain objects, arrays and Dates. -/
def isObjectJs : JsVal → Bool
  | JsVal.obj _ => true
  | JsVal.arr _ => true
  | JsVal.date _ => true
  | _ => false

/-- recursiveResolveOptions (source lines 571-599): maps over the entries of
defaultsFull (the defaults object of the current level, also the list being
walked), keeping the default when the key is absent from options, raising
"Invalid option" when the key is absent from the defaults (a branch that can
never fire, since the keys walked are exactly the defaults' keys), taking
arrays verbatim, recursing into objects, and taking primitives verbatim.
A thrown error aborts the walk, as the exception does in JS. -/
def rro (options defaultsFull : List (String × JsVal)) :
    List (String × JsVal) → Except String (List (String × JsVal))
  | [] => Except.ok []
  | (key, value) :: rest => do
    let entry ←
      if jsHasKey options key = false then
        Except.ok (key, value)
      else if jsHasKey defaultsFull key = false then
        Except.error ("Invalid option: " ++ key)
      else
        match jsGet options key with
        | none => Except.ok (key, value)
        | some ov =>
          if isArrayJs ov then Except.ok (key, ov)
          else if isObjectJs ov then
            (rro (jsEntries ov) (jsEntries value) (jsEntries value)).map
              (fun merged => (key, JsVal.obj merged))
          else Except.ok (key, ov)
    let tail ← rro options defaultsFull rest
    Except.ok (entry :: tail)
termination_by l => sizeOf l
decreasing_by
  · simp
  · cases value <;> simp [jsEntries] <;> omega

/-- The top-level call, handing the same object in as the entry list to walk
and as the full defaults checked by the (dead) invalid-option branch. -/
def recursiveResolveOptions (options defaults : List (String × JsVal)) :
    Except String (List (String × JsVal)) :=
  rro options defaults defaults

/-- The ntpDefaults group of NtpTimeSyncDefaultOptions as a JsVal object. -/
def ntpDefaultsObj : List (String × JsVal) :=
  [("port", JsVal.num 123), ("version", JsVal.num 4), ("tolerance", JsVal.num (15 / 1000000)),
   ("minPoll", JsVal.num 4), ("maxPoll", JsVal.num 17), ("maxDispersion", JsVal.num 16),
   ("minDispersion", JsVal.num (5 / 1000)), ("maxDistance", JsVal.num 1),
   ("maxStratum", JsVal.num 16), ("precision", JsVal.num (-18)),
   ("referenceDate", JsVal.date (-2208988800000))]

/-- NtpTimeSyncDefaultOptions (source lines 502-529) as a JsVal object. -/
def defaultOptionsObj : List (String × JsVal) :=
  [("servers", JsVal.arr [JsVal.str ("0.pool.ntp.org"), JsVal.str ("1.pool.ntp.org"),
      JsVal.str ("2.pool.ntp.org"), JsVal.str ("3.pool.ntp.org")]),
   ("sampleCount", JsVal.num 8), ("replyTimeout", JsVal.num 3000),
   ("maxRetries", JsVal.num 3), ("ntpDefaults", JsVal.obj ntpDefaultsObj)]

/-- A JavaScript number as the port computation distinguishes values: NaN,
signed Infinity (true = positive), or a finite value kept as an exact
rational. -/
inductive JsNum where
  | nan : JsNum
  | inf : Bool → JsNum
  | val : ℚ → JsNum
deriving DecidableEq

/-- A resolved server endpoint (constructor, source lines 556-561).  Strings
are modelled as character lists so that the splitting and numeric-conversion
semantics are fully explicit; the port is a JS number, since Number() can
produce NaN or Infinity. -/
structure ServerEndpoint where
  host : List Char
  port : JsNum
deriving DecidableEq

/-- JS String.split with a one-character separator: the list of segments
between occurrences of the separator; an empty string yields one empty
segment, as in JS. -/
def splitChar (sep : Char) : List Char → List (List Char)
  | [] => [[]]
  | c :: rest =>
    if c = sep then [] :: splitChar sep rest
    else
      match splitChar sep rest with
      | [] => [[c]]
      | seg :: segs => (c :: seg) :: segs

/-- server.split(":", 2): JS's limit argument truncates the full split to its
first two segments. -/
def serverParts (server : List Char) : List (List Char) :=
  (splitChar (':') server).take 2

/-- The whitespace characters ToNumber strips (ASCII subset; Unicode space
characters are outside this model). -/
def isJsSpace (c : Char) : Bool :=
  c = ' ' ∨ c = '\t' ∨ c = '\n' ∨ c = '\r' ∨ c = '\x0B' ∨ c = '\x0C'

/-- Leading and trailing whitespace removal. -/
def trimChars (s : List Char) : List Char :=
  ((s.dropWhile isJsSpace).reverse.dropWhile isJsSpace).reverse

/-- The numeric value of a list of decimal digits (no validation). -/
def decDigitsNat (s : List Char) : ℕ :=
  s.foldl (fun acc c => 10 * acc + (c.toNat - 48)) 0

/-- Whether c is a digit of the given radix (2, 8 or 16; both letter cases). -/
def isRadixDigit (radix : ℕ) (c : Char) : Bool :=
  if radix = 16 then c.isDigit ∨ ('a' ≤ c ∧ c ≤ 'f') ∨ ('A' ≤ c ∧ c ≤ 'F')
  else if radix = 8 then '0' ≤ c ∧ c ≤ '7'
  else c = '0' ∨ c = '1'

/-- The value of one radix digit. -/
def radixDigitVal (c : Char) : ℕ :=
  if c.isDigit then c.toNat - 48
  else if 'a' ≤ c ∧ c ≤ 'f' then c.toNat - 87
  else c.toNat - 55

/-- A non-empty string of radix digits as a natural number, none otherwise
(the HexDigits / OctalDigits / BinaryDigits productions). -/
def parseRadix (radix : ℕ) (s : List Char) : Option ℕ :=
  if s = [] then none
  else if s.all (isRadixDigit radix) then
    some (s.foldl (fun acc c => radix * acc + radixDigitVal c) 0)
  else none

/-- The exact mathematical value of intPart.fracPart times 10^exp, built as
an integer mantissa over a power of ten (equal to
(intPart + fracPart/10^|fracPart|) * 10^exp). -/
def decValue (intPart fracPart : List Char) (exp : ℤ) : ℚ :=
  let mantissa : ℕ := decDigitsNat intPart * 10 ^ fracPart.length + decDigitsNat fracPart
  let e : ℤ := exp - fracPart.length
  if 0 ≤ e then ((mantissa * 10 ^ e.toNat : ℕ) : ℚ)
  else Rat.divInt (mantissa : ℤ) (((10 : ℕ) ^ (-e).toNat : ℕ) : ℤ)

/-- The StrUnsignedDecimalLiteral production without Infinity:
DecimalDigits [. DecimalDigits] [ExponentPart] or . DecimalDigits
[ExponentPart], where ExponentPart is e/E with an optional sign and required
digits; none when s is not exactly of this shape. -/
def parseUnsignedDec (s : List Char) : Option ℚ :=
  let intPart := s.takeWhile Char.isDigit
  let r1 := s.dropWhile Char.isDigit
  let hasDot := match r1 with | '.' :: _ => true | _ => false
  let afterDot := match r1 with | '.' :: rest => rest | _ => []
  let fracPart := afterDot.takeWhile Char.isDigit
  let r2 := if hasDot then afterDot.dropWhile Char.isDigit else r1
  if intPart = [] ∧ fracPart = [] then none
  else
    match r2 with
    | [] => some (decValue intPart fracPart 0)
    | e :: rest =>
      if e = 'e' ∨ e = 'E' then
        match rest with
        | '+' :: ds =>
          if ds ≠ [] ∧ ds.all Char.isDigit then
            some (decValue intPart fracPart (decDigitsNat ds))
          else none
        | '-' :: ds =>
          if ds ≠ [] ∧ ds.all Char.isDigit then
            some (decValue intPart fracPart (-(decDigitsNat ds : ℤ)))
          else none
        | ds =>
          if ds ≠ [] ∧ ds.all Char.isDigit then
            some (decValue intPart fracPart (decDigitsNat ds))
          else none
      else none

/-- The body of a signed decimal literal: Infinity or an unsigned decimal
literal, with the sign applied (pos = true for an absent or + sign). -/
def parseDecBody (pos : Bool) (body : List Char) : JsNum :=
  if body = ("Infinity".toList) then JsNum.inf pos
  else
    match parseUnsignedDec body with
    | none => JsNum.nan
    | some q => JsNum.val (if pos then q else -q)

/-- The StrDecimalLiteral production: an optional sign followed by Infinity
or an unsigned decimal literal. -/
def parseSignedDec (t : List Char) : JsNum :=
  match t with
  | '-' :: rest => parseDecBody false rest
  | '+' :: rest => parseDecBody true rest
  | _ => parseDecBody true t

/-- ECMAScript ToNumber applied to a string (the StringNumericLiteral
grammar): whitespace is trimmed; the empty string is 0; 0x/0X, 0o/0O and
0b/0B prefix radix-16/8/2 integer literals (no sign allowed); otherwise an
optionally signed decimal literal with optional fraction and exponent, or
signed Infinity; anything else is NaN.  Values are kept as exact rationals:
the final rounding of the mathematical value to a double (including overflow
to Infinity) is idealized away, per this file's doubles-as-rationals
convention. -/
def jsToNumber (s : List Char) : JsNum :=
  match trimChars s with
  | [] => JsNum.val 0
  | '0' :: x :: rest =>
    if x = 'x' ∨ x = 'X' then
      match parseRadix 16 rest with
      | none => JsNum.nan
      | some n => JsNum.val n
    else if x = 'o' ∨ x = 'O' then
      match parseRadix 8 rest with
      | none => JsNum.nan
      | some n => JsNum.val n
    else if x = 'b' ∨ x = 'B' then
      match parseRadix 2 rest with
      | none => JsNum.nan
      | some n => JsNum.val n
    else parseSignedDec ('0' :: x :: rest)
  | t => parseSignedDec t

/-- The port expression of the constructor (source line 559):
Number(server.split(":", 2)[1]) || mergedConfig.ntpDefaults.port.
An absent segment gives Number(undefined) = NaN; NaN, 0 and -0 are the falsy
numbers under the || operator, so they fall back to the default port; every
other parsed number (Infinity included) is taken as the port. -/
def resolvePort (defaultPort : ℚ) (server : List Char) : JsNum :=
  match (serverParts server).get? 1 with
  | none => JsNum.val defaultPort
  | some seg =>
    match jsToNumber seg with
    | JsNum.nan => JsNum.val defaultPort
    | JsNum.inf b => JsNum.inf b
    | JsNum.val q => if q = 0 then JsNum.val defaultPort else JsNum.val q

/-- The resolved endpoint of one configured server string (source lines
556-561): host is the segment before the first ":", port as above. -/
def resolveServer (defaultPort : ℚ) (server : List Char) : ServerEndpoint :=
  { host := (serverParts server).headD ([]), port := resolvePort defaultPort server }

/-- parseInt(bits, 2): the value of a binary digit string, most significant
digit first. -/
def bitsToNat (bits : List ℕ) : ℕ := bits.foldl (fun acc b => 2 * acc + b) 0

/-- The binary digits of a positive number, most significant first (empty
for 0); the recursion of Number.prototype.toString(2) on integers. -/
def natBits : ℕ → List ℕ
  | 0 => []
  | n + 1 => natBits ((n + 1) / 2) ++ [(n + 1) % 2]
termination_by n => n
decreasing_by
  omega

/-- Number.prototype.toString(2) on a nonnegative integer: "0" for 0, the
binary digits otherwise. -/
def natToBin (n : ℕ) : List ℕ := if n = 0 then [0] else natBits n

/-- NtpTimeSync.pad with default arguments (source lines 749-755): left-pad
with zeros up to the target length; a string already at least that long is
returned unchanged (char.repeat(len).substring(0, len - str.length) clamps to
the empty string, as the truncated subtraction does here). -/
def padLeft (len : ℕ) (bits : List ℕ) : List ℕ :=
  List.replicate (len - bits.length) 0 ++ bits

/-- The 64-bit NTP timestamp value of createPacket (source lines 780-783):
the source computes (nowMs - referenceMs) / 1000 * 2^32 in IEEE-754 double
arithmetic, whose result at realistic magnitudes is an integer; the embedding
idealizes the double rounding as exact rational arithmetic rounded to the
nearest integer, which is how the spec reads the computation. -/
def ntpTimestampVal (cfg : NtpConfig) (nowMs : ℤ) : ℤ :=
  round ((((nowMs : ℚ) - (cfg.referenceDate : ℚ)) / 1000) * 2 ^ 32)

/-- The 64-digit zero-left-padded binary rendering of the timestamp value
(source line 783). -/
def tsBits (tsVal : ℕ) : List ℕ := padLeft 64 (natToBin tsVal)

/-- One byte of the timestamp field: substr(8*k, 8) of the 64-digit string,
parsed as binary (source lines 786-803). -/
def tsByte (tsVal k : ℕ) : ℕ := bitsToNat (((tsBits tsVal).drop (8 * k)).take 8)

/-- Byte 0 of the packet (source lines 769-777): the concatenation of the
2-digit leap indicator, 3-digit version and 3-digit mode binary renderings,
parsed as one binary number. -/
def headerByte (leapIndicator ntpVersion mode : ℕ) : ℕ :=
  bitsToNat (padLeft 2 (natToBin leapIndicator) ++ padLeft 3 (natToBin ntpVersion) ++
    padLeft 3 (natToBin mode))

/-- createPacket (source lines 763-806) at its only call site (line 851),
where every argument is defaulted: leapIndicator 3, ntpVersion null (replaced
by the configured version, since null is falsy), mode 3.  The packet is the
48-byte zero-filled array with byte 0 and the origin- and
transmit-timestamp fields (bytes 24-31 and 40-47) written. -/
def createPacket (cfg : NtpConfig) (leapIndicator mode : ℕ) (nowMs : ℤ) : List ℕ :=
  let ntpVersion := cfg.version
  let b0 := headerByte leapIndicator ntpVersion mode
  let ts := (ntpTimestampVal cfg nowMs).toNat
  ((((((((((((((((((List.replicate 48 0).set 0 b0).set
    24 (tsByte ts 0)).set 25 (tsByte ts 1)).set 26 (tsByte ts 2)).set 27 (tsByte ts 3)).set
    28 (tsByte ts 4)).set 29 (tsByte ts 5)).set 30 (tsByte ts 6)).set 31 (tsByte ts 7)).set
    40 (tsByte ts 0)).set 41 (tsByte ts 1)).set 42 (tsByte ts 2)).set 43 (tsByte ts 3)).set
    44 (tsByte ts 4)).set 45 (tsByte ts 5)).set 46 (tsByte ts 6)).set 47 (tsByte ts 7))

end NtpSync

namespace NtpSync

theorem isOk_error (s : String) : (Except.error s : Except String Unit).isOk = false := rfl

theorem isOk_ok : (Except.ok () : Except String Unit).isOk = true := rfl

/-- C5: the response validator rejects a reply if and only if one of the four
documented conditions holds: excessive version; leap indicator 3 or stratum at
least maxStratum; root distance (rootDelaySeconds/2 + rootDispersionSeconds,
both relative to the reference epoch) at least maxDispersionSeconds; or an
origin timestamp later than the current local time.  In particular a reply
with stratum 16 under maxStratum = 16 is rejected, and a reply failing none of
the conditions is accepted. -/
theorem acceptResponse_isOk_false_iff (cfg : NtpConfig) (now : ℤ) (data : NtpReceivedPacket) :
    ((acceptResponse cfg now data).isOk = false ↔ rejectCondition cfg now data) ∧
    (data.stratum = 16 → cfg.maxStratum = 16 → (acceptResponse cfg now data).isOk = false) := by
  have hmain : (acceptResponse cfg now data).isOk = false ↔ rejectCondition cfg now data := by
    unfold acceptResponse rejectCondition
    by_cases h1 : data.version > (cfg.version : ℤ)
    · rw [if_pos h1]
      simp [isOk_error, h1]
    · rw [if_neg h1]
      by_cases h2 : data.leapIndicator = 3 ∨ data.stratum ≥ cfg.maxStratum
      · rw [if_pos h2]
        simp [isOk_error, h2]
      · rw [if_neg h2]
        simp only []
        by_cases h3 : ((data.rootDelay : ℚ) - (cfg.referenceDate : ℚ)) / 1000 / 2 +
            ((data.rootDispersion : ℚ) - (cfg.referenceDate : ℚ)) / 1000 ≥ cfg.maxDispersion
        · rw [if_pos h3]
          simp [isOk_error, h3]
        · rw [if_neg h3]
          by_cases h4 : data.originTimestamp > now
          · rw [if_pos h4]
            simp [isOk_error, h4]
          · rw [if_neg h4]
            simp [isOk_ok, h1, h2, h3, h4]
  refine ⟨hmain, fun hs hm => ?_⟩
  rw [hmain]
  right
  left
  right
  rw [hs, hm]

/-- C5 witness: a concrete stratum-16 reply is rejected under the default
configuration (maxStratum = 16), via the validator theorem. -/
theorem acceptResponse_isOk_false_iff_witness :
    (acceptResponse defaultConfig 0
      { version := 4, leapIndicator := 0, stratum := 16, rootDelay := -2208988800000,
        rootDispersion := -2208988800000, originTimestamp := 0, receiveTimestamp := 0,
        transmitTimestamp := 0, destinationTimestamp := 0, precision := -20 }).isOk = false :=
  (acceptResponse_isOk_false_iff defaultConfig 0 _).2 rfl rfl

/-- C7: for every accepted reply the computed sample satisfies the documented
formulas: the sign is +1 exactly when transmitTimestamp exceeds
destinationTimestamp and -1 otherwise (including equality); the offset is
sign * (|receive - origin| + |transmit - destination|) / 2; the delay is
max(destination - origin - (receive - transmit), 2^precisionExp), hence at
least 2^precisionExp and strictly positive (never negative). -/
theorem computeSample_spec (cfg : NtpConfig) (data : NtpReceivedPacket) :
    (computeSample cfg data).offset =
      (if data.destinationTimestamp < data.transmitTimestamp then (1 : ℚ) else -1) *
        ((|(data.receiveTimestamp : ℚ) - (data.originTimestamp : ℚ)| +
          |(data.transmitTimestamp : ℚ) - (data.destinationTimestamp : ℚ)|) / 2) ∧
    (computeSample cfg data).delay =
      max ((data.destinationTimestamp : ℚ) - (data.originTimestamp : ℚ) -
            ((data.receiveTimestamp : ℚ) - (data.transmitTimestamp : ℚ)))
          ((2 : ℚ) ^ cfg.precision) ∧
    (2 : ℚ) ^ cfg.precision ≤ (computeSample cfg data).delay ∧
    0 < (computeSample cfg data).delay := by
  exact ⟨mul_comm _ _, rfl, le_max_right _ _,
    lt_of_lt_of_le (zpow_pos (by norm_num) _) (le_max_right _ _)⟩

theorem collectLoop_rounds_lt {ε : Type} (mr n : ℕ) :
    ∀ (trace : List (List (Except ε NtpReceivedPacket))) (acc : List NtpReceivedPacket)
      (retry rounds : ℕ) (a : List NtpReceivedPacket) (r c : ℕ),
      collectLoop mr n trace acc retry rounds = some (a, r, c) → rounds < c := by
  intro trace
  induction trace with
  | nil =>
    intro acc retry rounds a r c h
    simp [collectLoop] at h
  | cons round rest ih =>
    intro acc retry rounds a r c h
    rw [collectLoop] at h
    by_cases hc : (acc ++ roundAccepted round).length < n ∧
        (if (acc ++ roundAccepted round).length = 0 then retry + 1 else retry) < mr
    · rw [if_pos hc] at h
      have := ih _ _ _ _ _ _ h
      omega
    · rw [if_neg hc] at h
      have hc2 : c = rounds + 1 := by
        cases h
        rfl
      omega

theorem collectLoop_exit {ε : Type} (mr n : ℕ) :
    ∀ (trace : List (List (Except ε NtpReceivedPacket))) (acc : List NtpReceivedPacket)
      (retry rounds : ℕ) (a : List NtpReceivedPacket) (r c : ℕ),
      collectLoop mr n trace acc retry rounds = some (a, r, c) → ¬(a.length < n ∧ r < mr) := by
  intro trace
  induction trace with
  | nil =>
    intro acc retry rounds a r c h
    simp [collectLoop] at h
  | cons round rest ih =>
    intro acc retry rounds a r c h
    rw [collectLoop] at h
    by_cases hc : (acc ++ roundAccepted round).length < n ∧
        (if (acc ++ roundAccepted round).length = 0 then retry + 1 else retry) < mr
    · rw [if_pos hc] at h
      exact ih _ _ _ _ _ _ h
    · rw [if_neg hc] at h
      cases h
      exact hc

theorem collectLoop_allFail {ε : Type} (mr n : ℕ) (hn : 0 < n) :
    ∀ (trace : List (List (Except ε NtpReceivedPacket))),
      (∀ round ∈ trace, roundAccepted round = ([] : List NtpReceivedPacket)) →
      ∀ (retry rounds : ℕ), max mr 1 - retry ≤ trace.length → retry < max mr 1 →
      collectLoop mr n trace [] retry rounds = some ([], max mr 1, rounds + (max mr 1 - retry)) := by
  intro trace
  induction trace with
  | nil =>
    intro hfail retry rounds hlen hretry
    simp only [List.length_nil] at hlen
    omega
  | cons round rest ih =>
    intro hfail retry rounds hlen hretry
    have hr : roundAccepted round = ([] : List NtpReceivedPacket) :=
      hfail round (List.mem_cons_self _ _)
    rw [collectLoop, hr]
    simp only [List.append_nil, List.length_nil, eq_self_iff_true, if_true]
    by_cases hc : retry + 1 < mr
    · rw [if_pos ⟨hn, hc⟩]
      have hfail2 : ∀ r2 ∈ rest, roundAccepted r2 = ([] : List NtpReceivedPacket) :=
        fun r2 hmem => hfail r2 (List.mem_cons_of_mem _ hmem)
      have hstep := ih hfail2 (retry + 1) (rounds + 1)
        (by simp only [List.length_cons] at hlen; omega) (by omega)
      rw [hstep]
      have h3 : rounds + 1 + (max mr 1 - (retry + 1)) = rounds + (max mr 1 - retry) := by omega
      rw [h3]
    · rw [if_neg (fun hand => hc hand.2)]
      have h1 : retry + 1 = max mr 1 := by omega
      have h2 : rounds + 1 = rounds + (max mr 1 - retry) := by omega
      rw [h1, h2]

/-- C1 counterexample: with sampleCount = 8 and maxRetries = 3 (the defaults),
a first round producing exactly 1 accepted sample is not accepted as-is: the
loop starts a second round (a one-round trace does not suffice, and on a trace
whose second round supplies 7 more samples the run finishes after 2 rounds). -/
theorem collectSamples_one_of_eight_retries :
    collectSamples defaultConfig 8
      ([[Except.ok pkt0]] : List (List (Except String NtpReceivedPacket))) = none ∧
    (collectSamples defaultConfig 8
      ([[Except.ok pkt0], List.replicate 7 (Except.ok pkt0)] :
        List (List (Except String NtpReceivedPacket)))).map (fun x => x.2) = some 2 := by
  constructor
  · rfl
  · rfl

/-- C1 (amended): the retry counter increments only on rounds that leave the
cumulative accepted total at zero, but rounds keep being started while the
cumulative total is below sampleCount and the retry counter is below
maxRetries; in particular a first round producing at least 1 but fewer than
sampleCount accepted samples (e.g. 1 of 8) triggers a further round rather
than being accepted as-is.  The loop stops only when the cumulative total
reaches sampleCount or the retry counter reaches maxRetries. -/
theorem collectSamples_retry_policy {ε : Type} (cfg : NtpConfig) (n : ℕ)
    (round : List (Except ε NtpReceivedPacket))
    (rest : List (List (Except ε NtpReceivedPacket)))
    (h1 : 0 < (roundAccepted round).length) (h2 : (roundAccepted round).length < n)
    (h3 : 0 < cfg.maxRetries) :
    collectSamples cfg n [round] = none ∧
    (∀ out rounds, collectSamples cfg n (round :: rest) = some (out, rounds) → 2 ≤ rounds) ∧
    (∀ (trace : List (List (Except ε NtpReceivedPacket))) (acc : List NtpReceivedPacket)
      (retry rounds : ℕ) (a : List NtpReceivedPacket) (r c : ℕ),
      collectLoop cfg.maxRetries n trace acc retry rounds = some (a, r, c) →
      ¬(a.length < n ∧ r < cfg.maxRetries)) := by
  have hcond : (([] : List NtpReceivedPacket) ++ roundAccepted round).length < n ∧
      (if (([] : List NtpReceivedPacket) ++ roundAccepted round).length = 0 then 0 + 1 else 0) <
        cfg.maxRetries := by
    simp only [List.nil_append]
    refine ⟨h2, ?_⟩
    rw [if_neg (by omega)]
    exact h3
  refine ⟨?_, ?_, fun trace acc retry rounds a r c h => collectLoop_exit _ _ _ _ _ _ _ _ _ h⟩
  · unfold collectSamples
    rw [collectLoop, if_pos hcond]
    rfl
  · intro out rounds h
    unfold collectSamples at h
    rw [collectLoop, if_pos hcond] at h
    split at h
    · simp at h
    · rename_i acc2 retry2 rounds2 heq
      have hlt := collectLoop_rounds_lt cfg.maxRetries n rest _ _ _ _ _ _ heq
      split at h
      · cases h
        omega
      · cases h
        omega

/-- C1 amended witness: the policy theorem at a concrete one-accepted-sample
round with the default sampleCount 8 and maxRetries 3. -/
theorem collectSamples_retry_policy_witness :
    collectSamples defaultConfig 8
      ([[Except.ok pkt0, Except.error ("timeout")]] :
        List (List (Except String NtpReceivedPacket))) = none :=
  (collectSamples_retry_policy defaultConfig 8 [Except.ok pkt0, Except.error ("timeout")] []
    (by decide) (by decide) (by decide)).1

theorem collectLoop_congr {ε₁ ε₂ : Type} (mr n : ℕ) :
    ∀ (t1 : List (List (Except ε₁ NtpReceivedPacket)))
      (t2 : List (List (Except ε₂ NtpReceivedPacket))),
      t1.map roundAccepted = t2.map roundAccepted →
      ∀ (acc : List NtpReceivedPacket) (retry rounds : ℕ),
      collectLoop mr n t1 acc retry rounds = collectLoop mr n t2 acc retry rounds := by
  intro t1
  induction t1 with
  | nil =>
    intro t2 hmap acc retry rounds
    cases t2 with
    | nil => rfl
    | cons r2 rest2 => simp at hmap
  | cons r1 rest1 ih =>
    intro t2 hmap acc retry rounds
    cases t2 with
    | nil => simp at hmap
    | cons r2 rest2 =>
      simp only [List.map_cons, List.cons.injEq] at hmap
      rw [collectLoop, collectLoop, hmap.1, ih rest2 hmap.2]

/-- C3 counterexample: with maxRetries overridden to 0 (admitted by the data
model) and every exchange failing, the do-while still runs 1 round — not the
claimed "exactly maxRetries = 0 rounds, never more" — and the thrown
connection error reports a retry count of 1. -/
theorem collectSamples_zero_maxRetries :
    collectSamples cfgZeroRetries 8
      ([[Except.error ("ECONNREFUSED")]] : List (List (Except String NtpReceivedPacket))) =
      some (Except.error 1, 1) := by
  rfl

/-- C3 (amended): if every exchange of every round fails and sampleCount is
positive, collectSamples runs exactly max(maxRetries, 1) rounds (the do-while
always runs at least one round; for maxRetries at least 1, exactly maxRetries
rounds — never fewer, never more), and throws the connection error reporting
that count as its retry count; getTime propagates exactly this error and
leaves the module state unchanged; and the outcome depends only on which
samples each round accepted, never on the per-sample error values, which are
swallowed at round level. -/
theorem collectSamples_exhaustion {ε₁ ε₂ : Type} (cfg : NtpConfig)
    (trace : List (List (Except ε₁ NtpReceivedPacket)))
    (hn : 0 < cfg.sampleCount)
    (hfail : ∀ round ∈ trace, roundAccepted round = ([] : List NtpReceivedPacket))
    (hlen : max cfg.maxRetries 1 ≤ trace.length)
    (tCheck tDone tRes : ℤ) (force : Bool) :
    collectSamples cfg cfg.sampleCount trace =
      some (Except.error (max cfg.maxRetries 1), max cfg.maxRetries 1) ∧
    getTime cfg force tCheck tDone tRes trace initialState =
      some (Except.error (max cfg.maxRetries 1), initialState, true) ∧
    (∀ (t1 : List (List (Except ε₁ NtpReceivedPacket)))
       (t2 : List (List (Except ε₂ NtpReceivedPacket))),
      t1.map roundAccepted = t2.map roundAccepted →
      ∀ m, collectSamples cfg m t1 = collectSamples cfg m t2) := by
  have hloop := collectLoop_allFail cfg.maxRetries cfg.sampleCount hn trace hfail 0 0
    (by omega) (by omega)
  simp only [Nat.zero_add, Nat.sub_zero] at hloop
  have hcs : collectSamples cfg cfg.sampleCount trace =
      some (Except.error (max cfg.maxRetries 1), max cfg.maxRetries 1) := by
    unfold collectSamples
    rw [hloop]
    rfl
  refine ⟨hcs, ?_, ?_⟩
  · unfold getTime initialState getTimeMiss
    rw [hcs]
  · intro t1 t2 hmap m
    unfold collectSamples
    rw [collectLoop_congr cfg.maxRetries m t1 t2 hmap]

/-- C3 amended witness: three all-fail rounds under the default configuration
(maxRetries 3) give the exhaustion error reporting 3 retries after exactly 3
rounds, both from collectSamples and from getTime. -/
theorem collectSamples_exhaustion_witness :
    collectSamples defaultConfig defaultConfig.sampleCount
      ([[Except.error ("t1")], [Except.error ("t2")], [Except.error ("t3")]] :
        List (List (Except String NtpReceivedPacket))) =
      some (Except.error (max defaultConfig.maxRetries 1), max defaultConfig.maxRetries 1) :=
  (@collectSamples_exhaustion String String defaultConfig
    ([[Except.error ("t1")], [Except.error ("t2")], [Except.error ("t3")]] :
      List (List (Except String NtpReceivedPacket)))
    (by decide) (by decide) (by decide) 0 0 0 false).1

/-- C8: the selected samples are exactly the first numSamples entries of the
full sample list sorted ascending by delay: they are a prefix of that sorted
list (some tail extends them to it), the sorted list is a permutation of the
per-reply samples, it is pairwise ordered by delay, the number selected is
min(sampleCount, accepted), and the aggregate offset and precision are
functions of the selected prefix alone — samples outside it cannot influence
the result. -/
theorem selectSamples_spec (cfg : NtpConfig) (n : ℕ) (results : List NtpReceivedPacket) :
    selectSamples cfg n results = (sortedSamples cfg results).take n ∧
    (∃ tail, selectSamples cfg n results ++ tail = sortedSamples cfg results) ∧
    (selectSamples cfg n results).length = min n results.length ∧
    (sortedSamples cfg results).Perm (results.map (computeSample cfg)) ∧
    (sortedSamples cfg results).Pairwise (fun a b => a.delay ≤ b.delay) ∧
    (∀ results2 : List NtpReceivedPacket,
      selectSamples cfg n results = selectSamples cfg n results2 →
      avg ((selectSamples cfg n results).map SampleData.offset) =
          avg ((selectSamples cfg n results2).map SampleData.offset) ∧
        stdDev ((selectSamples cfg n results).map SampleData.offset) =
          stdDev ((selectSamples cfg n results2).map SampleData.offset)) := by
  refine ⟨rfl, ⟨(sortedSamples cfg results).drop n, List.take_append_drop n _⟩, ?_, ?_, ?_, ?_⟩
  · simp [selectSamples, sortedSamples]
  · exact List.mergeSort_perm _ _
  · have hs := @List.sorted_mergeSort SampleData (fun a b => decide (a.delay ≤ b.delay))
      (fun a b c hab hbc => by
        simp only [decide_eq_true_eq] at hab hbc ⊢
        exact le_trans hab hbc)
      (fun a b => by
        simp only [Bool.or_eq_true, decide_eq_true_eq]
        exact le_total a.delay b.delay)
      (results.map (computeSample cfg))
    exact hs.imp (fun h => by simpa using h)
  · intro results2 h
    rw [h]
    exact ⟨rfl, rfl⟩

/-- C8 witness: the selection theorem applied at a concrete one-reply input
under the default configuration. -/
theorem selectSamples_spec_witness :
    (selectSamples defaultConfig 8 [pkt0]).length = min 8 1 :=
  (selectSamples_spec defaultConfig 8 [pkt0]).2.2.1

/-- C6 counterexample: with zero selected samples (reachable only when
sampleCount is 0) the source computes sqrt(0/0) = NaN, modelled as none:
the precision is NaN, not the claimed 0, and NaN also falsifies
"precisionMs is greater than or equal to 0 in every case". -/
theorem stdDev_nil : stdDev ([] : List ℚ) = none := rfl

/-- C6 (amended): for every non-empty selected sample set the aggregate offset
is the arithmetic mean of the selected offsets and the precision is their
population standard deviation (square root of the mean of squared deviations
from the mean); exactly one selected sample yields precision 0; and whenever
the precision is a number (i.e. the selected set is non-empty) it is greater
than or equal to 0.  With zero selected samples the result is NaN, not 0. -/
theorem aggregate_mean_stdDev :
    (∀ xs : List ℚ, xs ≠ [] → avg xs = some (meanSpec xs)) ∧
    (∀ xs : List ℚ, xs ≠ [] → stdDev xs = some (Real.sqrt ((popVarSpec xs : ℚ) : ℝ))) ∧
    (∀ x : ℚ, stdDev [x] = some 0) ∧
    (∀ (xs : List ℚ) (r : ℝ), stdDev xs = some r → 0 ≤ r) := by
  have hsum : ∀ xs : List ℚ, sumJs xs = xs.sum := by
    intro xs
    have hgen : ∀ (l : List ℚ) (a : ℚ), l.foldl (fun s v => s + v) a = a + l.sum := by
      intro l
      induction l with
      | nil => intro a; simp
      | cons x t ih =>
        intro a
        simp only [List.foldl_cons, List.sum_cons, ih]
        ring
    simpa using hgen xs 0
  have havg : ∀ xs : List ℚ, xs ≠ [] → avg xs = some (meanSpec xs) := by
    intro xs hne
    unfold avg meanSpec
    rw [if_neg (by simpa using hne), hsum]
  have hvar : ∀ xs : List ℚ, xs ≠ [] → stdDevSq xs = some (popVarSpec xs) := by
    intro xs hne
    unfold stdDevSq
    rw [havg xs hne]
    show avg (squareDiffs xs (meanSpec xs)) = some (popVarSpec xs)
    unfold avg squareDiffs popVarSpec
    rw [if_neg (by simpa using hne), hsum]
    simp only [List.length_map]
    have hmap : List.map (fun value => (value - meanSpec xs) * (value - meanSpec xs)) xs =
        List.map (fun v => (v - meanSpec xs) ^ 2) xs :=
      List.map_congr_left (fun v _ => by ring)
    rw [hmap]
  have hstd : ∀ xs : List ℚ, xs ≠ [] → stdDev xs = some (Real.sqrt ((popVarSpec xs : ℚ) : ℝ)) := by
    intro xs hne
    unfold stdDev
    rw [hvar xs hne]
    rfl
  refine ⟨havg, hstd, ?_, ?_⟩
  · intro x
    rw [hstd [x] (by simp)]
    have hzero : popVarSpec [x] = 0 := by
      simp [popVarSpec, meanSpec]
    rw [hzero]
    simp
  · intro xs r h
    unfold stdDev at h
    cases hq : stdDevSq xs with
    | none => rw [hq] at h; simp at h
    | some q =>
      rw [hq] at h
      have h2 : Real.sqrt ((q : ℚ) : ℝ) = r := by simpa using h
      rw [← h2]
      exact Real.sqrt_nonneg _

/-- C6 amended witness: the aggregate theorem applied at the concrete inputs
[3, 5] (mean) and [7] (single-sample precision 0). -/
theorem aggregate_mean_stdDev_witness :
    avg [(3 : ℚ), 5] = some (meanSpec [(3 : ℚ), 5]) ∧ stdDev [(7 : ℚ)] = some 0 :=
  ⟨aggregate_mean_stdDev.1 [(3 : ℚ), 5] (by simp), aggregate_mean_stdDev.2.2.1 7⟩

/-- C10: the resolved endpoint port falls back to the default port (123, from
ntpDefaults.port) exactly when the ":port" segment is absent or parses (by
ECMAScript ToNumber) to 0 or to a non-number: "host:0" and "host:abc" both
resolve to port 123; a segment parsing to a nonzero number — including
exponent, fractional and hex numerals, as in "host:1e1" (port 10),
"host:1.5" (port 3/2) and "host:0x50" (port 80) — configures exactly that
number; a segment parsing to Infinity configures Infinity; any text after a
second ":" is ignored ("host:1:2" resolves to port 1); consequently a nonzero
default port never resolves to port 0, and (resolution being a total
function) endpoint resolution never fails at construction time. -/
theorem resolveServer_spec :
    (∀ (dflt : ℚ) (s : List Char), (serverParts s).get? 1 = none →
      resolvePort dflt s = JsNum.val dflt) ∧
    (∀ (dflt : ℚ) (s seg : List Char), (serverParts s).get? 1 = some seg →
      jsToNumber seg = JsNum.nan ∨ jsToNumber seg = JsNum.val 0 →
      resolvePort dflt s = JsNum.val dflt) ∧
    (∀ (dflt : ℚ) (s seg : List Char) (q : ℚ), (serverParts s).get? 1 = some seg →
      jsToNumber seg = JsNum.val q → q ≠ 0 → resolvePort dflt s = JsNum.val q) ∧
    (∀ (dflt : ℚ) (s seg : List Char) (b : Bool), (serverParts s).get? 1 = some seg →
      jsToNumber seg = JsNum.inf b → resolvePort dflt s = JsNum.inf b) ∧
    (∀ (dflt : ℚ) (s : List Char), dflt ≠ 0 → resolvePort dflt s ≠ JsNum.val 0) ∧
    resolveServer 123 ("host".toList) = { host := "host".toList, port := JsNum.val 123 } ∧
    resolveServer 123 ("host:0".toList) = { host := "host".toList, port := JsNum.val 123 } ∧
    resolveServer 123 ("host:abc".toList) = { host := "host".toList, port := JsNum.val 123 } ∧
    resolveServer 123 ("host:1:2".toList) = { host := "host".toList, port := JsNum.val 1 } ∧
    resolveServer 123 ("host:1e1".toList) = { host := "host".toList, port := JsNum.val 10 } ∧
    resolveServer 123 ("host:1.5".toList) =
      { host := "host".toList, port := JsNum.val (3 / 2) } ∧
    resolveServer 123 ("host:0x50".toList) = { host := "host".toList, port := JsNum.val 80 } := by
  refine ⟨?_, ?_, ?_, ?_, ?_, by decide, by decide, by decide, by decide, by decide, ?_,
    by decide⟩
  · intro dflt s h
    unfold resolvePort
    rw [h]
  · intro dflt s seg h h2
    unfold resolvePort
    rw [h]
    show ((match jsToNumber seg with
      | JsNum.nan => JsNum.val dflt
      | JsNum.inf b => JsNum.inf b
      | JsNum.val q => if q = 0 then JsNum.val dflt else JsNum.val q : JsNum)) = JsNum.val dflt
    rcases h2 with h3 | h3
    · rw [h3]
    · rw [h3]
      show (if (0 : ℚ) = 0 then JsNum.val dflt else JsNum.val 0) = JsNum.val dflt
      rw [if_pos rfl]
  · intro dflt s seg q h hq hne
    unfold resolvePort
    rw [h]
    show ((match jsToNumber seg with
      | JsNum.nan => JsNum.val dflt
      | JsNum.inf b => JsNum.inf b
      | JsNum.val q => if q = 0 then JsNum.val dflt else JsNum.val q : JsNum)) = JsNum.val q
    rw [hq]
    show (if q = 0 then JsNum.val dflt else JsNum.val q) = JsNum.val q
    rw [if_neg hne]
  · intro dflt s seg b h hb
    unfold resolvePort
    rw [h]
    show ((match jsToNumber seg with
      | JsNum.nan => JsNum.val dflt
      | JsNum.inf b => JsNum.inf b
      | JsNum.val q => if q = 0 then JsNum.val dflt else JsNum.val q : JsNum)) = JsNum.inf b
    rw [hb]
  · intro dflt s hd
    unfold resolvePort
    cases hget : (serverParts s).get? 1 with
    | none =>
      show JsNum.val dflt ≠ JsNum.val 0
      simp [hd]
    | some seg =>
      show ((match jsToNumber seg with
        | JsNum.nan => JsNum.val dflt
        | JsNum.inf b => JsNum.inf b
        | JsNum.val q => if q = 0 then JsNum.val dflt else JsNum.val q : JsNum)) ≠ JsNum.val 0
      cases hnum : jsToNumber seg with
      | nan =>
        show JsNum.val dflt ≠ JsNum.val 0
        simp [hd]
      | inf b =>
        show JsNum.inf b ≠ JsNum.val 0
        simp
      | val q =>
        show (if q = 0 then JsNum.val dflt else JsNum.val q) ≠ JsNum.val 0
        by_cases hq : q = 0
        · rw [if_pos hq]
          simp [hd]
        · rw [if_neg hq]
          simp [hq]
  · rw [show (3 / 2 : ℚ) = Rat.divInt 3 2 from by rw [Rat.divInt_eq_div]; norm_num]
    decide

/-- C10 witness: the resolution theorem applied at the concrete server
strings "x", "x:0" and "x:7". -/
theorem resolveServer_spec_witness :
    resolvePort 123 ("x".toList) = JsNum.val 123 ∧
      resolvePort 123 ("x:0".toList) = JsNum.val 123 ∧
      resolvePort 123 ("x:7".toList) = JsNum.val 7 :=
  ⟨resolveServer_spec.1 123 ("x".toList) (by decide),
   resolveServer_spec.2.1 123 ("x:0".toList) ("0".toList) (by decide) (Or.inr (by decide)),
   resolveServer_spec.2.2.1 123 ("x:7".toList) ("7".toList) 7 (by decide) (by decide)
     (by decide)⟩

theorem bitsToNat_go (b : List ℕ) :
    ∀ acc : ℕ, b.foldl (fun acc x => 2 * acc + x) acc = acc * 2 ^ b.length + bitsToNat b := by
  induction b with
  | nil =>
    intro acc
    simp [bitsToNat]
  | cons x xs ih =>
    intro acc
    simp only [List.foldl_cons, List.length_cons]
    rw [ih (2 * acc + x)]
    have hx : bitsToNat (x :: xs) = x * 2 ^ xs.length + bitsToNat xs := by
      show List.foldl (fun acc x => 2 * acc + x) (2 * 0 + x) xs = x * 2 ^ xs.length + bitsToNat xs
      rw [ih (2 * 0 + x)]
      norm_num
    rw [hx]
    ring

theorem bitsToNat_cons (x : ℕ) (xs : List ℕ) :
    bitsToNat (x :: xs) = x * 2 ^ xs.length + bitsToNat xs := by
  show List.foldl (fun acc x => 2 * acc + x) (2 * 0 + x) xs = x * 2 ^ xs.length + bitsToNat xs
  rw [bitsToNat_go xs (2 * 0 + x)]
  norm_num

theorem bitsToNat_append (a b : List ℕ) :
    bitsToNat (a ++ b) = bitsToNat a * 2 ^ b.length + bitsToNat b := by
  unfold bitsToNat
  rw [List.foldl_append]
  exact bitsToNat_go b _

theorem bitsToNat_singleton (x : ℕ) : bitsToNat [x] = x := by
  simp [bitsToNat]

theorem bitsToNat_replicate_zero (k : ℕ) : bitsToNat (List.replicate k 0) = 0 := by
  induction k with
  | zero => rfl
  | succ k ih =>
    rw [List.replicate_succ, show List.replicate k 0 = List.replicate k 0 ++ [] from by simp]
    rw [show (0 : ℕ) :: (List.replicate k 0 ++ []) = [0] ++ List.replicate k 0 from by simp]
    rw [bitsToNat_append, bitsToNat_singleton]
    simp [ih]

theorem bitsToNat_padLeft (len : ℕ) (b : List ℕ) :
    bitsToNat (padLeft len b) = bitsToNat b := by
  unfold padLeft
  rw [bitsToNat_append, bitsToNat_replicate_zero]
  simp

theorem padLeft_length (len : ℕ) (b : List ℕ) (h : b.length ≤ len) :
    (padLeft len b).length = len := by
  unfold padLeft
  simp
  omega

theorem natBits_val : ∀ n : ℕ, bitsToNat (natBits n) = n := by
  intro n
  induction n using Nat.strong_induction_on with
  | _ n ih =>
    match n with
    | 0 => simp [natBits, bitsToNat]
    | m + 1 =>
      rw [natBits, bitsToNat_append, bitsToNat_singleton]
      rw [ih ((m + 1) / 2) (by omega)]
      simp only [List.length_singleton]
      omega

theorem natBits_lt_two : ∀ n : ℕ, ∀ b ∈ natBits n, b < 2 := by
  intro n
  induction n using Nat.strong_induction_on with
  | _ n ih =>
    match n with
    | 0 =>
      intro b hb
      simp [natBits] at hb
    | m + 1 =>
      intro b hb
      rw [natBits] at hb
      rcases List.mem_append.1 hb with h | h
      · exact ih ((m + 1) / 2) (by omega) b h
      · simp at h
        omega

theorem natBits_length_le : ∀ (L n : ℕ), n < 2 ^ L → (natBits n).length ≤ L := by
  intro L
  induction L with
  | zero =>
    intro n h
    have hn : n = 0 := by
      simp at h
      omega
    subst hn
    simp [natBits]
  | succ L ih =>
    intro n h
    match n with
    | 0 => simp [natBits]
    | m + 1 =>
      rw [natBits]
      have h2 : (2 : ℕ) ^ (L + 1) = 2 * 2 ^ L := by
        rw [pow_succ]
        ring
      have hrec := ih ((m + 1) / 2) (by omega)
      simp only [List.length_append, List.length_singleton]
      omega

theorem natToBin_val (n : ℕ) : bitsToNat (natToBin n) = n := by
  unfold natToBin
  by_cases h : n = 0
  · rw [if_pos h, bitsToNat_singleton, h]
  · rw [if_neg h, natBits_val]

theorem natToBin_lt_two (n : ℕ) : ∀ b ∈ natToBin n, b < 2 := by
  unfold natToBin
  by_cases h : n = 0
  · rw [if_pos h]
    intro b hb
    simp at hb
    omega
  · rw [if_neg h]
    exact natBits_lt_two n

theorem natToBin_length_le (L n : ℕ) (hL : 0 < L) (h : n < 2 ^ L) :
    (natToBin n).length ≤ L := by
  unfold natToBin
  by_cases h0 : n = 0
  · rw [if_pos h0]
    simpa using hL
  · rw [if_neg h0]
    exact natBits_length_le L n h

theorem bitsToNat_lt : ∀ b : List ℕ, (∀ x ∈ b, x < 2) → bitsToNat b < 2 ^ b.length := by
  intro b
  induction b with
  | nil =>
    intro _
    simp [bitsToNat]
  | cons x xs ih =>
    intro hb
    rw [bitsToNat_cons]
    have hxlt : x < 2 := hb x (List.mem_cons_self _ _)
    have hxs : bitsToNat xs < 2 ^ xs.length := ih (fun y hy => hb y (List.mem_cons_of_mem _ hy))
    have h2 : (2 : ℕ) ^ (x :: xs).length = 2 * 2 ^ xs.length := by
      rw [List.length_cons, pow_succ]
      ring
    rw [h2]
    have : x * 2 ^ xs.length ≤ 1 * 2 ^ xs.length := by
      apply Nat.mul_le_mul_right
      omega
    omega

theorem bitsToNat_take_drop (b : List ℕ) (s : ℕ) (hb : ∀ x ∈ b, x < 2) :
    bitsToNat (b.take s) = bitsToNat b / 2 ^ (b.length - s) ∧
    bitsToNat (b.drop s) = bitsToNat b % 2 ^ (b.length - s) := by
  have hlen : (b.drop s).length = b.length - s := List.length_drop s b
  have hval : bitsToNat b = bitsToNat (b.take s) * 2 ^ (b.length - s) + bitsToNat (b.drop s) := by
    conv_lhs => rw [← List.take_append_drop s b]
    rw [bitsToNat_append, hlen]
  have hdrop_lt : bitsToNat (b.drop s) < 2 ^ (b.length - s) := by
    have h := bitsToNat_lt (b.drop s) (fun x hx => hb x (List.mem_of_mem_drop hx))
    rwa [hlen] at h
  have hK : 0 < 2 ^ (b.length - s) := Nat.pos_pow_of_pos _ (by omega)
  constructor
  · rw [hval, mul_comm, Nat.mul_add_div hK, Nat.div_eq_of_lt hdrop_lt, Nat.add_zero]
  · rw [hval, mul_comm, Nat.mul_add_mod, Nat.mod_eq_of_lt hdrop_lt]

theorem tsBits_spec (ts : ℕ) (h : ts < 2 ^ 64) :
    (tsBits ts).length = 64 ∧ bitsToNat (tsBits ts) = ts ∧ ∀ x ∈ tsBits ts, x < 2 := by
  refine ⟨padLeft_length 64 _ (natToBin_length_le 64 ts (by omega) h), ?_, ?_⟩
  · rw [tsBits, bitsToNat_padLeft, natToBin_val]
  · intro x hx
    rcases List.mem_append.1 hx with h1 | h1
    · have := List.eq_of_mem_replicate h1
      omega
    · exact natToBin_lt_two ts x h1

theorem tsByte_eq (ts k : ℕ) (hts : ts < 2 ^ 64) (hk : k ≤ 7) :
    tsByte ts k = ts / 2 ^ (8 * (7 - k)) % 256 := by
  obtain ⟨hlen, hval, hbits⟩ := tsBits_spec ts hts
  have hdrop := (bitsToNat_take_drop (tsBits ts) (8 * k) hbits).2
  rw [hlen, hval] at hdrop
  have hdrop_bits : ∀ x ∈ (tsBits ts).drop (8 * k), x < 2 :=
    fun x hx => hbits x (List.mem_of_mem_drop hx)
  have htake := (bitsToNat_take_drop ((tsBits ts).drop (8 * k)) 8 hdrop_bits).1
  have hdlen : ((tsBits ts).drop (8 * k)).length = 64 - 8 * k := by
    rw [List.length_drop, hlen]
  unfold tsByte
  rw [htake, hdrop, hdlen]
  have he1 : 64 - 8 * k = 8 * (7 - k) + 8 := by omega
  have he2 : (64 : ℕ) - 8 * k - 8 = 8 * (7 - k) := by omega
  rw [he2, he1, pow_add, Nat.mod_mul_right_div_self]
  rfl

theorem headerByte_eq (li v m : ℕ) (hli : li < 4) (hv : v < 8) (hm : m < 8) :
    headerByte li v m = li * 64 + v * 8 + m := by
  unfold headerByte
  have hv3 : (padLeft 3 (natToBin v)).length = 3 :=
    padLeft_length 3 _ (natToBin_length_le 3 v (by omega) (by omega))
  have hm3 : (padLeft 3 (natToBin m)).length = 3 :=
    padLeft_length 3 _ (natToBin_length_le 3 m (by omega) (by omega))
  rw [bitsToNat_append, bitsToNat_append, bitsToNat_padLeft, bitsToNat_padLeft,
    bitsToNat_padLeft, natToBin_val, natToBin_val, natToBin_val, hv3, hm3]
  ring

/-- C9: every packet the encoder produces (at its only call site all
arguments are defaulted: leap indicator 3, mode 3, version null and hence the
configured version) is a 48-byte buffer in which byte 0 is the 8-bit
concatenation of the leap indicator (2 bits), version (3 bits) and mode
(3 bits); bytes 24-31 and bytes 40-47 are byte-for-byte equal and encode the
current local time as round((nowMs - epochMs)/1000 * 2^32) rendered as 64
zero-left-padded binary digits sliced into 8 big-endian bytes (byte k holding
floor(ts / 2^(8*(7-k))) mod 256); and every other byte is zero. -/
theorem createPacket_length (cfg : NtpConfig) (li m : ℕ) (nowMs : ℤ) :
    (createPacket cfg li m nowMs).length = 48 := by
  simp [createPacket]

set_option maxHeartbeats 1000000 in
theorem createPacket_getElem (cfg : NtpConfig) (li m : ℕ) (nowMs : ℤ) :
    ∀ i, i < 48 →
    (createPacket cfg li m nowMs)[i]? =
      some (if i = 0 then headerByte li cfg.version m
        else if 24 ≤ i ∧ i ≤ 31 then tsByte ((ntpTimestampVal cfg nowMs).toNat) (i - 24)
        else if 40 ≤ i ∧ i ≤ 47 then tsByte ((ntpTimestampVal cfg nowMs).toNat) (i - 40)
        else 0) := by
  intro i hi
  interval_cases i <;>
    simp +decide [createPacket, List.getElem?_set, List.length_set, List.length_replicate,
      List.getElem?_replicate]

set_option maxHeartbeats 1000000 in
theorem createPacket_spec (cfg : NtpConfig) (li m : ℕ) (nowMs : ℤ)
    (hli : li < 4) (hv : cfg.version < 8) (hm : m < 8)
    (hts : (ntpTimestampVal cfg nowMs).toNat < 2 ^ 64) :
    (createPacket cfg li m nowMs).length = 48 ∧
    (createPacket cfg li m nowMs).getD 0 0 = li * 64 + cfg.version * 8 + m ∧
    (∀ k, k ≤ 7 → (createPacket cfg li m nowMs).getD (24 + k) 0 =
      (createPacket cfg li m nowMs).getD (40 + k) 0) ∧
    (∀ k, k ≤ 7 → (createPacket cfg li m nowMs).getD (24 + k) 0 =
      (ntpTimestampVal cfg nowMs).toNat / 2 ^ (8 * (7 - k)) % 256) ∧
    (∀ i, i < 48 → i ≠ 0 → ¬(24 ≤ i ∧ i ≤ 31) → ¬(40 ≤ i ∧ i ≤ 47) →
      (createPacket cfg li m nowMs).getD i 0 = 0) := by
  have hget : ∀ i, i < 48 → (createPacket cfg li m nowMs).getD i 0 =
      (if i = 0 then headerByte li cfg.version m
        else if 24 ≤ i ∧ i ≤ 31 then tsByte ((ntpTimestampVal cfg nowMs).toNat) (i - 24)
        else if 40 ≤ i ∧ i ≤ 47 then tsByte ((ntpTimestampVal cfg nowMs).toNat) (i - 40)
        else 0) := by
    intro i hi
    rw [List.getD_eq_getElem?_getD, createPacket_getElem cfg li m nowMs i hi]
    rfl
  refine ⟨createPacket_length cfg li m nowMs, ?_, ?_, ?_, ?_⟩
  · rw [hget 0 (by omega)]
    rw [if_pos rfl]
    exact headerByte_eq li cfg.version m hli hv hm
  · intro k hk
    rw [hget (24 + k) (by omega), hget (40 + k) (by omega)]
    rw [if_neg (by omega), if_pos (by omega), if_neg (by omega), if_neg (by omega),
      if_pos (by omega)]
    have h1 : 24 + k - 24 = k := by omega
    have h2 : 40 + k - 40 = k := by omega
    rw [h1, h2]
  · intro k hk
    rw [hget (24 + k) (by omega)]
    rw [if_neg (by omega), if_pos (by omega)]
    have h1 : 24 + k - 24 = k := by omega
    rw [h1]
    exact tsByte_eq _ k hts hk
  · intro i hi h0 h24 h40
    rw [hget i hi]
    rw [if_neg h0, if_neg h24, if_neg h40]

/-- C9 witness: the packet theorem at the default invocation (leap 3, mode 3,
configured version 4) one second after the reference epoch, where the
timestamp value is 2^32. -/
theorem createPacket_spec_witness :
    (createPacket defaultConfig 3 3 (-2208988799000)).getD 0 0 =
      3 * 64 + defaultConfig.version * 8 + 3 := by
  have hval : ntpTimestampVal defaultConfig (-2208988799000) = 2 ^ 32 := by
    simp [ntpTimestampVal, defaultConfig]
    norm_num [round_eq]
  exact (createPacket_spec defaultConfig 3 3 (-2208988799000) (by decide) (by decide)
    (by decide) (by rw [hval]; decide)).2.1

theorem getTime_hit {ε : Type} (cfg : NtpConfig) (tCheck tDone tRes : ℤ)
    (trace : List (List (Except ε NtpReceivedPacket))) (t : ℤ) (r : CacheVal)
    (hD : t ≠ 0) (hfresh : tCheck - t < 2 ^ cfg.minPoll * 1000) :
    getTime cfg false tCheck tDone tRes trace
        { lastPoll := some t, lastResult := some r } =
      some (Except.ok
          { now := r.offset.map (fun o => (tRes : ℚ) + o), offset := r.offset,
            precision := r.precision },
        { lastPoll := some t, lastResult := some r }, false) := by
  show (if false = false ∧ t ≠ 0 ∧ tCheck - t < 2 ^ cfg.minPoll * 1000 then
      some (Except.ok
          { now := r.offset.map (fun o => (tRes : ℚ) + o), offset := r.offset,
            precision := r.precision },
        ({ lastPoll := some t, lastResult := some r } : GlobalState), false)
    else getTimeMiss cfg tDone tRes trace { lastPoll := some t, lastResult := some r }) =
    some (Except.ok
        { now := r.offset.map (fun o => (tRes : ℚ) + o), offset := r.offset,
          precision := r.precision },
      { lastPoll := some t, lastResult := some r }, false)
  rw [if_pos ⟨rfl, hD, hfresh⟩]

/-- C4 (amended): two getTime(false) calls where the first performs a network
round completing at a nonzero clock value tDone, and the second's cache check
happens less than 2^minPoll seconds after tDone: the second call performs no
network round, returns offsetMs and precisionMs equal to the first call's,
takes its corrected time from the fresh wall-clock read tRes2 projected
through the cached offset, and leaves the module state unchanged.  (The
nonzero requirement on tDone is forced by the source's JS truthiness test on
lastPoll.) -/
theorem getTime_cache {ε₁ ε₂ : Type} (cfg : NtpConfig)
    (tC1 tD1 tR1 tC2 tD2 tR2 : ℤ)
    (trace1 : List (List (Except ε₁ NtpReceivedPacket)))
    (trace2 : List (List (Except ε₂ NtpReceivedPacket)))
    (st0 st1 : GlobalState) (r1 : SyncResult)
    (h1 : getTime cfg false tC1 tD1 tR1 trace1 st0 = some (Except.ok r1, st1, true))
    (hD : tD1 ≠ 0)
    (hfresh : tC2 - tD1 < 2 ^ cfg.minPoll * 1000) :
    getTime cfg false tC2 tD2 tR2 trace2 st1 =
      some (Except.ok
          { now := r1.offset.map (fun o => (tR2 : ℚ) + o), offset := r1.offset,
            precision := r1.precision },
        st1, false) := by
  have hmiss : getTimeMiss cfg tD1 tR1 trace1 st0 = some (Except.ok r1, st1, true) := by
    unfold getTime at h1
    cases hp : st0.lastPoll with
    | none =>
      rw [hp] at h1
      exact h1
    | some t =>
      rw [hp] at h1
      have h1b : (if false = false ∧ t ≠ 0 ∧ tC1 - t < 2 ^ cfg.minPoll * 1000 then
            (match st0.lastResult with
              | none => none
              | some r =>
                some (Except.ok
                    { now := r.offset.map (fun o => (tR1 : ℚ) + o), offset := r.offset,
                      precision := r.precision },
                  st0, false))
          else getTimeMiss cfg tD1 tR1 trace1 st0) = some (Except.ok r1, st1, true) := h1
      by_cases hcond : false = false ∧ t ≠ 0 ∧ tC1 - t < 2 ^ cfg.minPoll * 1000
      · rw [if_pos hcond] at h1b
        cases hr : st0.lastResult with
        | none =>
          rw [hr] at h1b
          simp at h1b
        | some rr =>
          rw [hr] at h1b
          simp at h1b
      · rw [if_neg hcond] at h1b
        exact h1b
  unfold getTimeMiss at hmiss
  cases hcs : collectSamples cfg cfg.sampleCount trace1 with
  | none =>
    rw [hcs] at hmiss
    simp at hmiss
  | some p =>
    rw [hcs] at hmiss
    obtain ⟨res, rounds⟩ := p
    cases res with
    | error retry =>
      simp at hmiss
    | ok samples =>
      simp only [Option.some.injEq, Prod.mk.injEq, Except.ok.injEq] at hmiss
      obtain ⟨hr1, hst1, -⟩ := hmiss
      subst hr1
      subst hst1
      exact getTime_hit cfg tC2 tD2 tR2 trace2 tD1 _ hD hfresh

/-- C4 counterexample: the claim as stated fails when the first call's round
completes at clock value 0 (Date.now() = 0): a stored lastPoll of 0 is falsy
in JS, so a second getTime(false) call 5 ms later — well within 2^minPoll
seconds of the completed round — performs another network round (flag true)
instead of serving the cache. -/
theorem getTime_zero_lastPoll_reruns :
    ((getTime cfgOneSample false 0 0 0 traceOne initialState).bind
        (fun x => getTime cfgOneSample false 5 6 7 traceOne x.2.1)).map
      (fun y => y.2.2) = some true := rfl

/-- C2 (code bug): a caller-supplied configuration with a key that is not
among the documented option keys is silently ignored: construction returns
the merged configuration (here exactly the defaults) with no error, because
the merge iterates over the defaults' entries, so the "Invalid option" throw
the source contains for this purpose can never fire.  The claim matches the
code's own (dead) error branch; the code's behavior contradicts it. -/
theorem recursiveResolveOptions_ignores_unknown_key :
    recursiveResolveOptions [("invalidOption", JsVal.num 42)] defaultOptionsObj =
      Except.ok defaultOptionsObj := by
  simp +decide [recursiveResolveOptions, rro, jsHasKey, jsGet, isArrayJs, isObjectJs,
    jsEntries, defaultOptionsObj, ntpDefaultsObj]
  rfl

theorem getTime_first_call_concrete :
    getTime cfgOneSample false 0 100 7 traceOne initialState =
      some (Except.ok r1A, stA, true) := by
  have hsel : selectSamples cfgOneSample cfgOneSample.sampleCount [pkt0] =
      [computeSample cfgOneSample pkt0] := by
    simp [selectSamples, sortedSamples, cfgOneSample, defaultConfig]
  have hcs : collectSamples cfgOneSample cfgOneSample.sampleCount traceOne =
      some (Except.ok [computeSample cfgOneSample pkt0], 1) := by
    rw [← hsel]
    rfl
  have hoff0 : (computeSample cfgOneSample pkt0).offset = 0 := by
    simp [computeSample, pkt0]
  have hoffv : avg [(0 : ℚ)] = some 0 := by
    simp [avg, sumJs]
  have hsdq : stdDevSq [(0 : ℚ)] = some 0 := by
    simp [stdDevSq, avg, squareDiffs, sumJs]
  have hsd : stdDev [(0 : ℚ)] = some 0 := by
    unfold stdDev
    rw [hsdq]
    simp
  show getTimeMiss cfgOneSample 100 7 traceOne initialState = some (Except.ok r1A, stA, true)
  unfold getTimeMiss
  rw [hcs]
  show some (Except.ok
      { now := (avg [(computeSample cfgOneSample pkt0).offset]).map (fun o => ((7 : ℤ) : ℚ) + o),
        offset := avg [(computeSample cfgOneSample pkt0).offset],
        precision := stdDev [(computeSample cfgOneSample pkt0).offset] },
    ({ lastPoll := some 100,
       lastResult := some
         { offset := avg [(computeSample cfgOneSample pkt0).offset],
           precision := stdDev [(computeSample cfgOneSample pkt0).offset] } } : GlobalState),
    true) = some (Except.ok r1A, stA, true)
  rw [hoff0, hoffv, hsd]
  show some (Except.ok
      { now := some (((7 : ℤ) : ℚ) + 0), offset := some 0, precision := some 0 },
    ({ lastPoll := some 100,
       lastResult := some { offset := some 0, precision := some 0 } } : GlobalState),
    true) = some (Except.ok r1A, stA, true)
  norm_num [r1A, stA]

/-- C4 amended witness: a cached state written by a first call completing at
clock value 100 is served unchanged by a second call whose cache check happens
at clock value 105, via the cache theorem at concrete inputs. -/
theorem getTime_cache_witness :
    getTime cfgOneSample false 105 200 300
        ([[Except.error ("late")]] : List (List (Except String NtpReceivedPacket))) stA =
      some (Except.ok
          { now := r1A.offset.map (fun o => ((300 : ℤ) : ℚ) + o),
            offset := r1A.offset, precision := r1A.precision },
        stA, false) :=
  getTime_cache cfgOneSample 0 100 7 105 200 300 traceOne
    ([[Except.error ("late")]] : List (List (Except String NtpReceivedPacket)))
    initialState stA r1A getTime_first_call_concrete (by decide) (by decide)

end NtpSync
